import Mathlib

/-!
# Continuous power profiling (`runtime_src/xdp/profile/continuous_profile.cpp`)

A shallow embedding of the sampling-thread lifecycle of XRT's continuous profiler, and
proofs about it.

* `ThreadMonitor` : `launch`, `terminate`, the destructor.
* `SamplingMonitor` : `setLaunch`, `setTerminate`, `thread_func`.
* `PowerMonitor` : the constructor, `willLaunch`, `readPowerStatus`, `outputPowerStatus`,
  `sampleOnce`, `didTerminate`.
* `PowerProfile` : the constructor, `launch`, `terminate`.

The code is embedded three times, each time from the source text.

* `thread_func` as a function of what its iterations observe (the flag, the predicate),
  returning the calls it makes.
* `launch`, `terminate` and the hooks of `PowerMonitor` as functions on the state of one
  monitor and of the outside world (files, `std::cout`), the sampling thread being an
  execution unit the monitor owns or does not own.
* The caller and the sampling thread as two programs whose statements are interleaved,
  with the mutex and `join` as the only waits.

Conventions.

* `int` values are mathematical integers (`ℤ`); the only arithmetic on them is the division
  of line 43, whose result is range checked.
* `double` values are rationals; a division is rounded to the nearest binary64 number
  (53 bit significand, ties to even).
* A constructor returns `Except Failure _`; a member function that can fail returns a
  `Result`, which keeps the state reached at the failure.
* The text written to a stream is a `List Char`.
* Declarations of `continuous_profile.h` and of the device are not part of the source
  file; what is taken from the specification for them is marked in the doc comment.
-/

namespace XCL

/-! ## Arithmetic of line 43: `int interval = 1e6 / sample_freq;` -/

/-- Nearest integer to `m`, a tie going to the even neighbour. -/
def roundHalfEven (m : ℚ) : ℤ :=
  let f : ℤ := ⌊m⌋
  let d : ℚ := m - f
  if d < 1 / 2 then f
  else if 1 / 2 < d then f + 1
  else if f % 2 = 0 then f else f + 1

/-- Nearest binary64 number to a positive rational `q`: with `2 ^ e ≤ q < 2 ^ (e + 1)`
the significand `q * 2 ^ (52 - e)` is rounded to an integer. The exponent is not
limited, which agrees with binary64 for `2 ^ (-1022) ≤ q < 2 ^ 1024`. -/
def roundPos (q : ℚ) : ℚ :=
  let e : ℤ := Int.log 2 q
  (roundHalfEven (q * (2 : ℚ) ^ (52 - e)) : ℚ) * (2 : ℚ) ^ (e - 52)

/-- Nearest binary64 number to a rational (round to nearest, ties to even). -/
def roundDouble (q : ℚ) : ℚ :=
  if q = 0 then 0 else if q < 0 then - roundPos (-q) else roundPos q

/-- The `double` quotient `a / b`. A zero divisor gives no finite number (`none`). -/
def doubleDiv (a b : ℚ) : Option ℚ :=
  if b = 0 then none else some (roundDouble (a / b))

/-- Truncation toward zero. -/
def truncQ (x : ℚ) : ℤ := if 0 ≤ x then ⌊x⌋ else ⌈x⌉

/-- Conversion of a `double` to `int`: truncation toward zero, undefined (`none`) when
the truncated value is not an `int`. -/
def doubleToInt (x : ℚ) : Option ℤ :=
  let t := truncQ x
  if -2147483648 ≤ t ∧ t ≤ 2147483647 then some t else none

/-- Line 43: `int interval = 1e6 / sample_freq;`. The member `sample_freq` is declared in
`continuous_profile.h`; it is taken as an `int`, like the constructor argument `freq_in`
that line 63 passes on. The literal `1e6` is a `double`, so `sample_freq` is converted to
`double` (exactly, for an `int`), the quotient is a `double`, and the initialisation
truncates it. `none` is undefined behaviour. -/
def interval (sample_freq : ℤ) : Option ℤ :=
  (doubleDiv 1000000 (sample_freq : ℚ)).bind doubleToInt

/-! ## `SamplingMonitor::thread_func` (lines 41-60) -/

/-- The calls made by `thread_func`, in the order they are made. -/
inductive Event
  | willSample
  | willSampleOnce
  | sampleOnce
  | didSampleOnce
  | willPause
  | sleep_for (microseconds : ℤ)
  | didPause
  | didSample
  deriving DecidableEq, Repr

/-- What one iteration of the loop observes: the value of `should_continue` read under
the lock at line 46, and the value `shoudEarlyTerminate()` returns if line 48 calls it
(it is called only when the flag was read as true). -/
structure Observation where
  should_continue : Bool
  shoudEarlyTerminate : Bool
  deriving DecidableEq, Repr

/-- The calls made by a run of the loop and whether the loop was left. -/
structure Run where
  events : List Event
  exited : Bool
  deriving DecidableEq, Repr

/-- The `while (true)` loop of lines 44-58, run on the observations of its successive
iterations. When the observations are used up the loop is still running. -/
def sampling_loop (interval : ℤ) : List Observation → Run
  | [] => ⟨[], false⟩
  | o :: rest =>
    let continue_sample := o.should_continue
    if continue_sample && !o.shoudEarlyTerminate then
      let r := sampling_loop interval rest
      ⟨[Event.willSampleOnce, Event.sampleOnce, Event.didSampleOnce,
        Event.willPause, Event.sleep_for interval, Event.didPause] ++ r.events, r.exited⟩
    else
      ⟨[], true⟩

/-- The function `SamplingMonitor::thread_func`: `willSample()`, the interval, the loop, then
`didSample()` once the loop is left. -/
def thread_func (sample_freq : ℤ) (obs : List Observation) : Option Run :=
  match interval sample_freq with
  | none => none
  | some i =>
    let r := sampling_loop i obs
    some ⟨[Event.willSample] ++ r.events ++ (if r.exited then [Event.didSample] else []),
      r.exited⟩

/-- One sample cycle as the specification lists it. -/
def sampleCycle (interval : ℤ) : List Event :=
  [Event.willSampleOnce, Event.sampleOnce, Event.didSampleOnce,
   Event.willPause, Event.sleep_for interval, Event.didPause]

/-- The leading observations with the flag true and the predicate false. -/
def leadingSamples (obs : List Observation) : List Observation :=
  obs.takeWhile (fun o => o.should_continue && !o.shoudEarlyTerminate)

/-- The argument of a `sleep_for` call. -/
def Event.sleepArg : Event → Option ℤ
  | Event.sleep_for us => some us
  | _ => none

/-! ## Output streams and files -/

/-- How `std::ofstream::open` is asked to open a file: `out | trunc` or `app`. -/
inductive OpenMode
  | trunc
  | app
  deriving DecidableEq, Repr

/-- A `std::ofstream`: the file it is open on (`none` when `is_open()` is false), the
characters written and not yet flushed, and whether the stream has left the good state. -/
structure OfStream where
  file : Option String
  buffer : List Char
  failbit : Bool
  deriving DecidableEq, Repr

/-- A default constructed `std::ofstream`. -/
def OfStream.closed : OfStream := ⟨none, [], false⟩

/-- The outside world of the profiler: the content of every file by name (`none` for a
file that does not exist) and what was written to `std::cout`. -/
structure World where
  files : String → Option (List Char)
  cout : List Char

/-- Replace the content of one file. -/
def World.setFile (w : World) (name : String) (content : List Char) : World :=
  { w with files := fun n => if n = name then some content else w.files n }

/-- The text of a file, empty when the file does not exist. -/
def World.content (w : World) (name : String) : List Char :=
  (w.files name).getD []

/-- The function `std::ofstream::open`. It fails on a stream that is already open. Otherwise the file
is created when missing, emptied under `trunc`, kept under `app`, and the error state is
cleared. Opening a file never fails in this model. -/
def OfStream.open (s : OfStream) (w : World) (name : String) (mode : OpenMode) :
    OfStream × World :=
  if s.file.isSome then
    ({ s with failbit := true }, w)
  else
    (⟨some name, [], false⟩,
      match mode with
      | OpenMode.trunc => w.setFile name []
      | OpenMode.app => w.setFile name (w.content name))

/-- The function `std::ostream::flush`: the buffered characters go to the end of the file. -/
def OfStream.flush (s : OfStream) (w : World) : OfStream × World :=
  match s.file with
  | none => (s, w)
  | some name =>
    if s.failbit then (s, w)
    else ({ s with buffer := [] }, w.setFile name (w.content name ++ s.buffer))

/-- The function `std::ofstream::close`: what is buffered is written and the file is released; closing
a stream that is not open fails. -/
def OfStream.close (s : OfStream) (w : World) : OfStream × World :=
  match s.file with
  | none => ({ s with failbit := true }, w)
  | some name =>
    ({ s with file := none, buffer := [] }, w.setFile name (w.content name ++ s.buffer))

/-- The insertion `stream << text`: nothing is written by a stream that is not good; writing to a
stream that is not open fails. -/
def OfStream.put (s : OfStream) (text : List Char) : OfStream :=
  if s.failbit then s
  else match s.file with
    | none => { s with failbit := true }
    | some _ => { s with buffer := s.buffer ++ text }

/-- The insertion `stream << std::endl`: a newline, then a flush. -/
def OfStream.endl (s : OfStream) (w : World) : OfStream × World :=
  (s.put ['\n']).flush w

/-- The insertion `std::cout << text`. -/
def World.print (w : World) (text : List Char) : World :=
  { w with cout := w.cout ++ text }

/-! ## The monitored device -/

/-- Modelled from the spec: the structure `XclPowerInfo`, the power status of a device,
whose declaration is not in the source file. The specification calls it a fixed-shape
aggregate of named numeric fields; the fields are the ones `outputPowerStatus` reads
(lines 116-136), taken as unsigned integers. -/
structure XclPowerInfo where
  mTimeStamp : ℕ
  mVInt : ℕ
  mCurrent : ℕ
  mVAux : ℕ
  mVBram : ℕ
  m12VPex : ℕ
  m12VAux : ℕ
  mPexCurr : ℕ
  mAuxCurr : ℕ
  m3v3Pex : ℕ
  m3v3Aux : ℕ
  mDDRVppBottom : ℕ
  mDDRVppTop : ℕ
  mSys5v5 : ℕ
  m1v2Top : ℕ
  m1v8Top : ℕ
  m0v85 : ℕ
  mMgt0v9 : ℕ
  m12vSW : ℕ
  mMgtVtt : ℕ
  m1v2Bottom : ℕ
  deriving DecidableEq, Repr

/-- Modelled from the spec: the class `xocl::device`, whose declaration is not in the
source file, as the profiler uses it: a target with the unique string identifier that
`get_unique_name()` returns. The status returned by `get_power_info()` is an input of each
sample. -/
structure Device where
  unique_name : String
  deriving DecidableEq, Repr

/-- Decimal text of an unsigned integer, as `operator<<` prints it. -/
def showNat (n : ℕ) : List Char := Nat.toDigits 10 n

/-- Decimal text of a signed integer, as `operator<<` prints it. -/
def showInt : ℤ → List Char
  | Int.ofNat n => showNat n
  | Int.negSucc n => '-' :: showNat (n + 1)

/-! ## `ThreadMonitor` and `SamplingMonitor` -/

/-- The calls `launch()` and `terminate()` make, `thread` being the creation of the
`std::thread` that runs `thread_func` and `join` the call of `monitor_thread.join()`. -/
inductive Call
  | willLaunch
  | setLaunch
  | thread
  | didLaunch
  | willTerminate
  | setTerminate
  | join
  | didTerminate
  deriving DecidableEq, Repr

/-- How a member function can fail to return. -/
inductive Failure
  /-- A call of `std::terminate()`: a `std::thread` is move assigned to a joinable one. -/
  | terminate_called
  /-- The exception `std::system_error`: thrown by `std::thread::join` on a thread that is not joinable. -/
  | system_error
  deriving DecidableEq, Repr

/-- A monitor object. `monitor_thread` is `monitor_thread.joinable()`; `derived` is the
state of the most derived class; `calls` records the calls made so far. -/
structure Engine (σ : Type) where
  sample_freq : ℤ
  should_continue : Bool
  monitor_thread : Bool
  derived : σ
  calls : List Call

/-- The final overriders of the virtual functions called by `launch()` and `terminate()`.
The four hooks act on the state of the derived class and on the outside world. -/
structure VTable (σ : Type) where
  willLaunch : σ → World → σ × World
  setLaunch : Engine σ → Engine σ
  didLaunch : σ → World → σ × World
  willTerminate : σ → World → σ × World
  setTerminate : Engine σ → Engine σ
  didTerminate : σ → World → σ × World

/-- The hooks of a sampler that `SamplingMonitor` leaves to its derived classes. -/
structure Hooks (σ : Type) where
  willLaunch : σ → World → σ × World
  didLaunch : σ → World → σ × World
  willTerminate : σ → World → σ × World
  didTerminate : σ → World → σ × World

/-- How a call ends: it returns, or it fails; either way with the state reached. -/
inductive Result (α : Type)
  | returned (state : α)
  | failed (failure : Failure) (state : α)

/-- Record a call. -/
def Engine.record {σ : Type} (e : Engine σ) (c : Call) : Engine σ :=
  { e with calls := e.calls ++ [c] }

/-- Run a hook on the derived state of an engine. -/
def Engine.hook {σ : Type} (e : Engine σ) (w : World) (f : σ → World → σ × World) :
    Engine σ × World :=
  ({ e with derived := (f e.derived w).1 }, (f e.derived w).2)

/-- The function `SamplingMonitor::setLaunch` (lines 29-33). -/
def SamplingMonitor.setLaunch {σ : Type} (e : Engine σ) : Engine σ :=
  { e with should_continue := true }

/-- The function `SamplingMonitor::setTerminate` (lines 35-39). -/
def SamplingMonitor.setTerminate {σ : Type} (e : Engine σ) : Engine σ :=
  { e with should_continue := false }

/-- The overriders of a sampler: `SamplingMonitor` defines `setLaunch` and `setTerminate`. -/
def SamplingMonitor.vtable {σ : Type} (h : Hooks σ) : VTable σ :=
  { willLaunch := h.willLaunch
    setLaunch := SamplingMonitor.setLaunch
    didLaunch := h.didLaunch
    willTerminate := h.willTerminate
    setTerminate := SamplingMonitor.setTerminate
    didTerminate := h.didTerminate }

/-- The function `ThreadMonitor::launch` (lines 15-20). Line 18 creates the thread and move assigns it
to `monitor_thread`, which calls `std::terminate()` when `monitor_thread` is joinable. -/
def ThreadMonitor.launch {σ : Type} (v : VTable σ) (e : Engine σ) (w : World) :
    Result (Engine σ × World) :=
  let (e1, w1) := (e.record Call.willLaunch).hook w v.willLaunch
  let e2 := v.setLaunch (e1.record Call.setLaunch)
  let e3 := e2.record Call.thread
  if e3.monitor_thread then
    Result.failed Failure.terminate_called (e3, w1)
  else
    let e4 := { e3 with monitor_thread := true }
    let (e5, w5) := (e4.record Call.didLaunch).hook w1 v.didLaunch
    Result.returned (e5, w5)

/-- The function `ThreadMonitor::terminate` (lines 22-27). `join()` throws on a thread that is not
joinable; otherwise it returns when the thread has finished, and the thread is no longer
joinable. -/
def ThreadMonitor.terminate {σ : Type} (v : VTable σ) (e : Engine σ) (w : World) :
    Result (Engine σ × World) :=
  let (e1, w1) := (e.record Call.willTerminate).hook w v.willTerminate
  let e2 := v.setTerminate (e1.record Call.setTerminate)
  let e3 := e2.record Call.join
  if e3.monitor_thread then
    let e4 := { e3 with monitor_thread := false }
    let (e5, w5) := (e4.record Call.didTerminate).hook w1 v.didTerminate
    Result.returned (e5, w5)
  else
    Result.failed Failure.system_error (e3, w1)

/-- The destructor `ThreadMonitor::~ThreadMonitor` (lines 9-13). `v` holds the overriders in force while
the destructor runs. -/
def ThreadMonitor.destroy {σ : Type} (v : VTable σ) (e : Engine σ) (w : World) :
    Result (Engine σ × World) :=
  if e.monitor_thread then ThreadMonitor.terminate v e w
  else Result.returned (e, w)
/-! ## `PowerMonitor` -/

/-- The members `PowerMonitor` adds to the engine: the device it watches and the stream of
its trace file. -/
structure PowerState where
  device : Device
  power_dump_file : OfStream
  deriving DecidableEq, Repr

/-- The name of the trace file of a device (line 77). -/
def dump_filename (device : Device) : String :=
  "power-trace-" ++ device.unique_name ++ ".csv"

/-- The pieces of text lines 82-103 insert into the stream, in source order. -/
def headerPieces : List String :=
  ["timestamp", ",", "mTimeStamp", ",", "mVInt", ",", "mCurrent", ",", "mVAux", ",",
   "mVBram", ",", "m12VPex", ",", "m12VAux", ",", "mPexCurr", ",", "mAuxCurr", ",",
   "m3v3Pex", ",", "m3v3Aux", ",", "mDDRVppBottom", ",", "mDDRVppTop", ",",
   "mSys5v5", ",", "m1v2Top", ",", "m1v8Top", ",", "m0v85", ",", "mMgt0v9", ",",
   "m12vSW", ",", "mMgtVtt", ",", "m1v2Bottom"]

/-- The pieces of text lines 115-136 insert into the stream, in source order. -/
def rowPieces (timestamp : ℤ) (status : XclPowerInfo) : List (List Char) :=
  [showInt timestamp, [','], showNat status.mTimeStamp, [','], showNat status.mVInt, [','],
   showNat status.mCurrent, [','], showNat status.mVAux, [','], showNat status.mVBram, [','],
   showNat status.m12VPex, [','], showNat status.m12VAux, [','],
   showNat status.mPexCurr, [','], showNat status.mAuxCurr, [','],
   showNat status.m3v3Pex, [','], showNat status.m3v3Aux, [','],
   showNat status.mDDRVppBottom, [','], showNat status.mDDRVppTop, [','],
   showNat status.mSys5v5, [','], showNat status.m1v2Top, [','],
   showNat status.m1v8Top, [','], showNat status.m0v85, [','],
   showNat status.mMgt0v9, [','], showNat status.m12vSW, [','],
   showNat status.mMgtVtt, [','], showNat status.m1v2Bottom]

/-- Insert pieces of text into a stream one after the other. -/
def OfStream.putAll (s : OfStream) (pieces : List (List Char)) : OfStream :=
  pieces.foldl OfStream.put s

/-- The function `PowerMonitor::willLaunch` (lines 76-106): the file name is printed, the
file is opened with `out | trunc` and closed, opened again with `app`, and the header row
is written and flushed. -/
def PowerMonitor.willLaunch (s : PowerState) (w : World) : PowerState × World :=
  let name := dump_filename s.device
  let w0 := w.print ("open ".data ++ name.data ++ ['\n'])
  let (f1, w1) := s.power_dump_file.open w0 name OpenMode.trunc
  let (f2, w2) := f1.close w1
  let (f3, w3) := f2.open w2 name OpenMode.app
  let f4 := f3.putAll (headerPieces.map String.data)
  let (f5, w5) := f4.endl w3
  let (f6, w6) := f5.flush w5
  ({ s with power_dump_file := f6 }, w6)

/-- The function `PowerMonitor::outputPowerStatus` (lines 113-139), `timestamp` being the
count read from the system clock at line 114. -/
def PowerMonitor.outputPowerStatus (timestamp : ℤ) (status : XclPowerInfo)
    (s : PowerState) (w : World) : PowerState × World :=
  let f1 := s.power_dump_file.putAll (rowPieces timestamp status)
  let (f2, w2) := f1.endl w
  let (f3, w3) := f2.flush w2
  ({ s with power_dump_file := f3 }, w3)

/-- One sample as the environment provides it: the clock count of line 114 and the status
`get_power_info()` returns at line 109. -/
structure Sample where
  timestamp : ℤ
  status : XclPowerInfo
  deriving DecidableEq, Repr

/-- The function `PowerMonitor::readPowerStatus` (lines 108-111): the status the device
returns for this sample. -/
def PowerMonitor.readPowerStatus (x : Sample) : XclPowerInfo :=
  x.status

/-- The function `PowerMonitor::sampleOnce` (lines 67-70): read the status, write it. -/
def PowerMonitor.sampleOnce (x : Sample) (s : PowerState) (w : World) : PowerState × World :=
  let status := PowerMonitor.readPowerStatus x
  PowerMonitor.outputPowerStatus x.timestamp status s w

/-- The calls of `sampleOnce` made by the sampling thread, one per sample, in order. -/
def PowerMonitor.sampleAll : List Sample → PowerState → World → PowerState × World
  | [], s, w => (s, w)
  | x :: xs, s, w =>
    PowerMonitor.sampleAll xs (PowerMonitor.sampleOnce x s w).1 (PowerMonitor.sampleOnce x s w).2

/-- The function `PowerMonitor::didTerminate` (lines 72-74). -/
def PowerMonitor.didTerminate (s : PowerState) (w : World) : PowerState × World :=
  ({ s with power_dump_file := (s.power_dump_file.close w).1 }, (s.power_dump_file.close w).2)

/-- Modelled from the spec: the hooks `didLaunch` and `willTerminate`, which are declared
in `continuous_profile.h` and which `PowerMonitor` does not define in the source file. The
specification describes them as extension points of the engine; they do nothing here. -/
def noHook {σ : Type} (s : σ) (w : World) : σ × World := (s, w)

/-- The hooks of a `PowerMonitor`. -/
def PowerMonitor.hooks : Hooks PowerState :=
  { willLaunch := PowerMonitor.willLaunch
    didLaunch := noHook
    willTerminate := noHook
    didTerminate := PowerMonitor.didTerminate }

/-- Modelled from the spec: the base class constructor `SamplingMonitor(freq_in)`, which
is defined in `continuous_profile.h` and not in the source file. Per the specification
the frequency is sampled once at construction, the source does not guard the division by
it, and a new engine is idle (flag false) and owns no execution unit. -/
def SamplingMonitor.new {σ : Type} (freq_in : ℤ) (derived : σ) : Except Failure (Engine σ) :=
  Except.ok
    { sample_freq := freq_in
      should_continue := false
      monitor_thread := false
      derived := derived
      calls := [] }

/-- The constructor `PowerMonitor::PowerMonitor` (lines 62-65): the base class is
constructed with `freq_in`, then the device is stored. -/
def PowerMonitor.new (freq_in : ℤ) (device_in : Device) : Except Failure (Engine PowerState) :=
  match SamplingMonitor.new freq_in (⟨device_in, OfStream.closed⟩ : PowerState) with
  | Except.error f => Except.error f
  | Except.ok e => Except.ok { e with derived := { e.derived with device := device_in } }

/-! ## `PowerProfile` -/

/-- The coordinator: its list of monitors. -/
structure PowerProfile where
  powerMonitors : List (Engine PowerState)

/-- The loop of lines 142-146 from the devices still to visit and the monitors pushed so
far. -/
def PowerProfile.build : List Device → List (Engine PowerState) →
    Except Failure (List (Engine PowerState))
  | [], monitors => Except.ok monitors
  | device :: rest, monitors =>
    match PowerMonitor.new 100 device with
    | Except.error f => Except.error f
    | Except.ok monitor => PowerProfile.build rest (monitors ++ [monitor])

/-- The constructor `PowerProfile::PowerProfile` (lines 141-147) on the device range of the
platform. -/
def PowerProfile.new (platform : List Device) : Except Failure PowerProfile :=
  match PowerProfile.build platform [] with
  | Except.error f => Except.error f
  | Except.ok monitors => Except.ok ⟨monitors⟩

/-- Call `f` on every monitor in order; a failure ends the loop with the monitors as they
are at that point. -/
def PowerProfile.forEach
    (f : Engine PowerState → World → Result (Engine PowerState × World)) :
    List (Engine PowerState) → World → Result (List (Engine PowerState) × World)
  | [], w => Result.returned ([], w)
  | m :: ms, w =>
    match f m w with
    | Result.failed x (m1, w1) => Result.failed x (m1 :: ms, w1)
    | Result.returned (m1, w1) =>
      match PowerProfile.forEach f ms w1 with
      | Result.failed x (ms2, w2) => Result.failed x (m1 :: ms2, w2)
      | Result.returned (ms2, w2) => Result.returned (m1 :: ms2, w2)

/-- The function `PowerProfile::launch` (lines 149-154). -/
def PowerProfile.launch (p : PowerProfile) (w : World) : Result (PowerProfile × World) :=
  let w0 := w.print "launching power profile ...\n".data
  match PowerProfile.forEach (ThreadMonitor.launch (SamplingMonitor.vtable PowerMonitor.hooks))
      p.powerMonitors w0 with
  | Result.failed x (ms, w1) => Result.failed x (⟨ms⟩, w1)
  | Result.returned (ms, w1) => Result.returned (⟨ms⟩, w1)

/-- The function `PowerProfile::terminate` (lines 156-160). -/
def PowerProfile.terminate (p : PowerProfile) (w : World) : Result (PowerProfile × World) :=
  match PowerProfile.forEach
      (ThreadMonitor.terminate (SamplingMonitor.vtable PowerMonitor.hooks)) p.powerMonitors w with
  | Result.failed x (ms, w1) => Result.failed x (⟨ms⟩, w1)
  | Result.returned (ms, w1) => Result.returned (⟨ms⟩, w1)

/-- The header row the specification declares: the capture timestamp, then the status
fields by name, each with the function that reads it. -/
def statusColumns : List (String × (XclPowerInfo → ℕ)) :=
  [("mTimeStamp", XclPowerInfo.mTimeStamp), ("mVInt", XclPowerInfo.mVInt),
   ("mCurrent", XclPowerInfo.mCurrent), ("mVAux", XclPowerInfo.mVAux),
   ("mVBram", XclPowerInfo.mVBram), ("m12VPex", XclPowerInfo.m12VPex),
   ("m12VAux", XclPowerInfo.m12VAux), ("mPexCurr", XclPowerInfo.mPexCurr),
   ("mAuxCurr", XclPowerInfo.mAuxCurr), ("m3v3Pex", XclPowerInfo.m3v3Pex),
   ("m3v3Aux", XclPowerInfo.m3v3Aux), ("mDDRVppBottom", XclPowerInfo.mDDRVppBottom),
   ("mDDRVppTop", XclPowerInfo.mDDRVppTop), ("mSys5v5", XclPowerInfo.mSys5v5),
   ("m1v2Top", XclPowerInfo.m1v2Top), ("m1v8Top", XclPowerInfo.m1v8Top),
   ("m0v85", XclPowerInfo.m0v85), ("mMgt0v9", XclPowerInfo.mMgt0v9),
   ("m12vSW", XclPowerInfo.m12vSW), ("mMgtVtt", XclPowerInfo.mMgtVtt),
   ("m1v2Bottom", XclPowerInfo.m1v2Bottom)]

/-- The text of the header row without its newline. -/
def headerText : List Char :=
  (headerPieces.map String.data).flatten

/-- The text of a data row without its newline. -/
def rowText (x : Sample) : List Char :=
  (rowPieces x.timestamp x.status).flatten

/-- The fields of a line of comma separated text. -/
def fields (line : List Char) : List (List Char) :=
  line.splitOn ','

/-- A character that is neither the separator nor the end of a line. -/
def Plain (c : Char) : Prop := c ≠ ',' ∧ c ≠ '\n'

/-- The fields of a data row as the specification lists them. -/
def rowFields (x : Sample) : List (List Char) :=
  showInt x.timestamp :: statusColumns.map (fun c => showNat (c.2 x.status))

/-- The fields of the header row as the specification lists them. -/
def headerFields : List (List Char) :=
  "timestamp".data :: statusColumns.map (fun c => c.1.data)

/-! ## The caller and the sampling thread, interleaved -/

/-- Where the calling thread is: the statement of `launch()` or `terminate()` it executes
next. `idle`: `launch()` has returned and `terminate()` is not yet called. `returned`:
`terminate()` has returned. -/
inductive CallerPc
  | line16_willLaunch
  | line30_lock
  | line31_store
  | line32_unlock
  | line18_thread
  | line19_didLaunch
  | idle
  | line36_lock
  | line37_store
  | line38_unlock
  | line25_join
  | line26_didTerminate
  | returned
  deriving DecidableEq, Repr

/-- Where the sampling thread is: the statement of `thread_func` it executes next. -/
inductive ThreadPc
  | not_started
  | line42_willSample
  | line43_interval
  | line45_lock
  | line46_read
  | line47_unlock
  | line48_test
  | line49_willSampleOnce
  | line50_sampleOnce
  | line51_didSampleOnce
  | line55_willPause
  | line56_sleep
  | line57_didPause
  | line59_didSample
  | exited
  deriving DecidableEq, Repr

/-- The two threads. -/
inductive Agent
  | caller
  | sampler
  deriving DecidableEq, Repr

/-- What an execution leaves in its trace. -/
inductive Mark
  | call (c : Call)
  | event (e : Event)
  | thread_func_exited
  | terminate_returned
  deriving DecidableEq, Repr

/-- The state shared by the two threads: their positions, the flag, the holder of the
mutex `status_guard`, the locals of `thread_func`, and the trace so far. -/
structure Sys where
  caller : CallerPc
  thread : ThreadPc
  should_continue : Bool
  status_guard : Option Agent
  continue_sample : Bool
  interval : ℤ
  trace : List Mark
  deriving DecidableEq, Repr

/-- A scheduling decision: the caller executes its next statement, or the sampling thread
does; `shoudEarlyTerminate` is what the predicate returns if that statement calls it. -/
inductive Action
  | caller
  | sampler (shoudEarlyTerminate : Bool)
  deriving DecidableEq, Repr

/-- A new engine on which `launch()` is called; the flag has any value. -/
def Sys.init (flag : Bool) : Sys :=
  { caller := CallerPc.line16_willLaunch
    thread := ThreadPc.not_started
    should_continue := flag
    status_guard := none
    continue_sample := false
    interval := 0
    trace := [] }

/-- The next statement of the caller. `lock()` waits for the mutex and `join()` for the
end of `thread_func`: a statement that has to wait gives `none`. -/
def stepCaller (s : Sys) : Option Sys :=
  match s.caller with
  | CallerPc.line16_willLaunch =>
    some { s with caller := CallerPc.line30_lock, trace := s.trace ++ [Mark.call Call.willLaunch] }
  | CallerPc.line30_lock =>
    if s.status_guard = none then
      some { s with caller := CallerPc.line31_store, status_guard := some Agent.caller,
                    trace := s.trace ++ [Mark.call Call.setLaunch] }
    else none
  | CallerPc.line31_store =>
    some { s with caller := CallerPc.line32_unlock, should_continue := true }
  | CallerPc.line32_unlock =>
    some { s with caller := CallerPc.line18_thread, status_guard := none }
  | CallerPc.line18_thread =>
    some { s with caller := CallerPc.line19_didLaunch, thread := ThreadPc.line42_willSample,
                  trace := s.trace ++ [Mark.call Call.thread] }
  | CallerPc.line19_didLaunch =>
    some { s with caller := CallerPc.idle, trace := s.trace ++ [Mark.call Call.didLaunch] }
  | CallerPc.idle =>
    some { s with caller := CallerPc.line36_lock,
                  trace := s.trace ++ [Mark.call Call.willTerminate] }
  | CallerPc.line36_lock =>
    if s.status_guard = none then
      some { s with caller := CallerPc.line37_store, status_guard := some Agent.caller,
                    trace := s.trace ++ [Mark.call Call.setTerminate] }
    else none
  | CallerPc.line37_store =>
    some { s with caller := CallerPc.line38_unlock, should_continue := false }
  | CallerPc.line38_unlock =>
    some { s with caller := CallerPc.line25_join, status_guard := none }
  | CallerPc.line25_join =>
    if s.thread = ThreadPc.exited then
      some { s with caller := CallerPc.line26_didTerminate,
                    trace := s.trace ++ [Mark.call Call.join] }
    else none
  | CallerPc.line26_didTerminate =>
    some { s with caller := CallerPc.returned,
                  trace := s.trace ++ [Mark.call Call.didTerminate, Mark.terminate_returned] }
  | CallerPc.returned => none

/-- The next statement of the sampling thread; `early` is the value of
`shoudEarlyTerminate()` if line 48 calls it. -/
def stepSampler (sample_freq : ℤ) (early : Bool) (s : Sys) : Option Sys :=
  match s.thread with
  | ThreadPc.not_started => none
  | ThreadPc.line42_willSample =>
    some { s with thread := ThreadPc.line43_interval,
                  trace := s.trace ++ [Mark.event Event.willSample] }
  | ThreadPc.line43_interval =>
    match interval sample_freq with
    | none => none
    | some i => some { s with thread := ThreadPc.line45_lock, interval := i }
  | ThreadPc.line45_lock =>
    if s.status_guard = none then
      some { s with thread := ThreadPc.line46_read, status_guard := some Agent.sampler }
    else none
  | ThreadPc.line46_read =>
    some { s with thread := ThreadPc.line47_unlock, continue_sample := s.should_continue }
  | ThreadPc.line47_unlock =>
    some { s with thread := ThreadPc.line48_test, status_guard := none }
  | ThreadPc.line48_test =>
    if s.continue_sample && !early then
      some { s with thread := ThreadPc.line49_willSampleOnce }
    else
      some { s with thread := ThreadPc.line59_didSample }
  | ThreadPc.line49_willSampleOnce =>
    some { s with thread := ThreadPc.line50_sampleOnce,
                  trace := s.trace ++ [Mark.event Event.willSampleOnce] }
  | ThreadPc.line50_sampleOnce =>
    some { s with thread := ThreadPc.line51_didSampleOnce,
                  trace := s.trace ++ [Mark.event Event.sampleOnce] }
  | ThreadPc.line51_didSampleOnce =>
    some { s with thread := ThreadPc.line55_willPause,
                  trace := s.trace ++ [Mark.event Event.didSampleOnce] }
  | ThreadPc.line55_willPause =>
    some { s with thread := ThreadPc.line56_sleep,
                  trace := s.trace ++ [Mark.event Event.willPause] }
  | ThreadPc.line56_sleep =>
    some { s with thread := ThreadPc.line57_didPause,
                  trace := s.trace ++ [Mark.event (Event.sleep_for s.interval)] }
  | ThreadPc.line57_didPause =>
    some { s with thread := ThreadPc.line45_lock,
                  trace := s.trace ++ [Mark.event Event.didPause] }
  | ThreadPc.line59_didSample =>
    some { s with thread := ThreadPc.exited,
                  trace := s.trace ++ [Mark.event Event.didSample, Mark.thread_func_exited] }
  | ThreadPc.exited => none

/-- One scheduling decision. -/
def step (sample_freq : ℤ) (s : Sys) : Action → Option Sys
  | Action.caller => stepCaller s
  | Action.sampler early => stepSampler sample_freq early s

/-- A schedule, decision after decision; `none` when a decision picks a thread that cannot
move. -/
def exec (sample_freq : ℤ) (s : Sys) : List Action → Option Sys
  | [] => some s
  | a :: rest =>
    match step sample_freq s a with
    | none => none
    | some s1 => exec sample_freq s1 rest

/-- What `terminate()` promises, read on a trace: wherever the return of `terminate()`
stands, the end of `thread_func` stands before it and no `sampleOnce` after it. -/
def TerminateContract (trace : List Mark) : Prop :=
  ∀ pre post, trace = pre ++ Mark.terminate_returned :: post →
    Mark.thread_func_exited ∈ pre ∧ Mark.event Event.sampleOnce ∉ post

/-- A schedule in which one sample is taken before `terminate()` is called. -/
def oneSampleSchedule : List Action :=
  List.replicate 6 Action.caller ++ List.replicate 12 (Action.sampler false)
    ++ List.replicate 4 Action.caller ++ List.replicate 5 (Action.sampler false)
    ++ List.replicate 2 Action.caller

/-- The invariant of the interleaved system. -/
def Inv (s : Sys) : Prop :=
  (s.caller = CallerPc.line26_didTerminate ∨ s.caller = CallerPc.returned →
      s.thread = ThreadPc.exited) ∧
  (s.thread = ThreadPc.exited → Mark.thread_func_exited ∈ s.trace) ∧
  (s.caller ≠ CallerPc.returned → Mark.terminate_returned ∉ s.trace) ∧
  (s.caller = CallerPc.returned → ∃ pre, s.trace = pre ++ [Mark.terminate_returned] ∧
      Mark.terminate_returned ∉ pre ∧ Mark.thread_func_exited ∈ pre)

/-- The state the schedule `oneSampleSchedule` ends in when the interval is 10000. -/
def oneSampleFinal : Sys :=
  { caller := CallerPc.returned
    thread := ThreadPc.exited
    should_continue := false
    status_guard := none
    continue_sample := false
    interval := 10000
    trace :=
      [Mark.call Call.willLaunch, Mark.call Call.setLaunch, Mark.call Call.thread,
       Mark.call Call.didLaunch, Mark.event Event.willSample,
       Mark.event Event.willSampleOnce, Mark.event Event.sampleOnce,
       Mark.event Event.didSampleOnce, Mark.event Event.willPause,
       Mark.event (Event.sleep_for 10000), Mark.event Event.didPause,
       Mark.call Call.willTerminate, Mark.call Call.setTerminate,
       Mark.event Event.didSample, Mark.thread_func_exited, Mark.call Call.join,
       Mark.call Call.didTerminate, Mark.terminate_returned] }
/-! ## Concrete states used as examples -/

/-- A world without files and with nothing printed. -/
def emptyWorld : World := ⟨fun _ => none, []⟩

/-- A new power monitor for the device `dev0`, as the coordinator constructs it. -/
def freshMonitor : Engine PowerState :=
  ⟨100, false, false, ⟨⟨"dev0"⟩, OfStream.closed⟩, []⟩

/-- The power monitor for `dev0` after `launch()`. -/
def launchedMonitor : Engine PowerState :=
  ⟨100, true, true, ⟨⟨"dev0"⟩, ⟨some "power-trace-dev0.csv", [], false⟩⟩,
    [Call.willLaunch, Call.setLaunch, Call.thread, Call.didLaunch]⟩

/-- A world in which the trace file of `dev0` holds 500 characters of an earlier run. -/
def staleWorld : World :=
  ⟨fun n => if n = dump_filename ⟨"dev0"⟩ then some (List.replicate 500 'x') else none, []⟩

/-- The monitor of a device after the coordinator has launched it. -/
def launchedFor (device : Device) : Engine PowerState :=
  ⟨100, true, true, ⟨device, ⟨some (dump_filename device), [], false⟩⟩,
    [Call.willLaunch, Call.setLaunch, Call.thread, Call.didLaunch]⟩

/-- The world after `willLaunch` has run for a device whose stream was not open. -/
def worldAfterLaunch (w : World) (device : Device) : World :=
  (w.print ("open ".data ++ (dump_filename device).data ++ ['\n'])).setFile
    (dump_filename device) (headerText ++ ['\n'])

/-! ## The interval of line 43 -/

theorem floor_le_roundHalfEven (m : ℚ) : ⌊m⌋ ≤ roundHalfEven m := by
  unfold roundHalfEven
  simp only
  split_ifs <;> omega

theorem roundHalfEven_le (m : ℚ) : (roundHalfEven m : ℚ) ≤ m + 1 / 2 := by
  unfold roundHalfEven
  simp only
  have h1 : ((⌊m⌋ : ℤ) : ℚ) ≤ m := Int.floor_le m
  split_ifs with h2 h3 h4
  · linarith
  · push_cast; linarith [Int.lt_floor_add_one m]
  · linarith
  · push_cast
    have : m - (⌊m⌋ : ℚ) = 1 / 2 := le_antisymm (not_lt.mp h3) (not_lt.mp h2)
    linarith

theorem roundPos_lower (q : ℚ) (hq : 0 < q) (hlt : q < (2 : ℚ) ^ (52 : ℤ)) (n : ℤ)
    (hn : (n : ℚ) ≤ q) : (n : ℚ) ≤ roundPos q := by
  unfold roundPos
  simp only
  have he : Int.log 2 q < 52 := by
    have := (Int.lt_zpow_iff_log_lt (R := ℚ) (b := 2) (by norm_num) (x := 52) hq).mp
    exact this (by exact_mod_cast hlt)
  obtain ⟨k, hk⟩ : ∃ k : ℕ, 52 - Int.log 2 q = (k : ℤ) :=
    ⟨(52 - Int.log 2 q).toNat, (Int.toNat_of_nonneg (by omega)).symm⟩
  have hk2 : Int.log 2 q - 52 = -(k : ℤ) := by omega
  rw [hk, hk2, zpow_natCast, zpow_neg, zpow_natCast]
  have hpos : (0 : ℚ) < (2 : ℚ) ^ k := by positivity
  have h1 : ((n * 2 ^ k : ℤ) : ℚ) ≤ q * (2 : ℚ) ^ k := by
    push_cast
    exact mul_le_mul_of_nonneg_right hn hpos.le
  have h2 : n * 2 ^ k ≤ roundHalfEven (q * (2 : ℚ) ^ k) :=
    le_trans (Int.le_floor.mpr h1) (floor_le_roundHalfEven _)
  have h3 : ((n * 2 ^ k : ℤ) : ℚ) ≤ (roundHalfEven (q * (2 : ℚ) ^ k) : ℚ) := by
    exact_mod_cast h2
  push_cast at h3
  rw [← div_eq_mul_inv, le_div_iff₀ hpos]
  exact h3

theorem roundPos_upper (q : ℚ) (hq : 0 < q) :
    roundPos q ≤ q + q / (2 : ℚ) ^ (53 : ℕ) := by
  unfold roundPos
  simp only
  set e := Int.log 2 q with he
  have hle : (2 : ℚ) ^ e ≤ q := by
    have := Int.zpow_log_le_self (R := ℚ) (b := 2) (by norm_num) hq
    exact_mod_cast this
  have hpos : (0 : ℚ) < (2 : ℚ) ^ (e - 52) := by positivity
  have h1 := roundHalfEven_le (q * (2 : ℚ) ^ (52 - e))
  have h2 : (roundHalfEven (q * (2 : ℚ) ^ (52 - e)) : ℚ) * (2 : ℚ) ^ (e - 52)
      ≤ (q * (2 : ℚ) ^ (52 - e) + 1 / 2) * (2 : ℚ) ^ (e - 52) :=
    mul_le_mul_of_nonneg_right h1 hpos.le
  have h3 : (2 : ℚ) ^ (52 - e) * (2 : ℚ) ^ (e - 52) = 1 := by
    rw [← zpow_add₀ (by norm_num : (2 : ℚ) ≠ 0)]
    simp
  have h4 : (2 : ℚ) ^ (e - 52) = (2 : ℚ) ^ e / (2 : ℚ) ^ (52 : ℕ) := by
    rw [zpow_sub₀ (by norm_num : (2 : ℚ) ≠ 0)]
    norm_cast
  have h5 : (q * (2 : ℚ) ^ (52 - e) + 1 / 2) * (2 : ℚ) ^ (e - 52)
      = q + (2 : ℚ) ^ e / (2 : ℚ) ^ (53 : ℕ) := by
    rw [add_mul, mul_assoc, h3, h4]
    ring
  rw [h5] at h2
  have h6 : (2 : ℚ) ^ e / (2 : ℚ) ^ (53 : ℕ) ≤ q / (2 : ℚ) ^ (53 : ℕ) :=
    div_le_div_of_nonneg_right hle (by positivity)
  linarith

theorem roundPos_quotient (F : ℤ) (hF : 0 < F) :
    ((1000000 / F : ℤ) : ℚ) ≤ roundPos (1000000 / (F : ℚ)) ∧
    roundPos (1000000 / (F : ℚ)) < ((1000000 / F : ℤ) : ℚ) + 1 := by
  have hFq : (0 : ℚ) < (F : ℚ) := by exact_mod_cast hF
  have hq : (0 : ℚ) < 1000000 / (F : ℚ) := by positivity
  have hF1 : (1 : ℚ) ≤ (F : ℚ) := by exact_mod_cast hF
  have hqle : 1000000 / (F : ℚ) ≤ 1000000 := div_le_self (by norm_num) hF1
  obtain ⟨d, hd⟩ : ∃ d : ℕ, F = (d : ℤ) := ⟨F.toNat, (Int.toNat_of_nonneg hF.le).symm⟩
  have hfloor : ⌊(1000000 : ℚ) / (F : ℚ)⌋ = 1000000 / F := by
    have := Rat.floor_intCast_div_natCast 1000000 d
    rw [hd]
    exact_mod_cast this
  set n : ℤ := 1000000 / F with hn
  have hlow : (n : ℚ) ≤ 1000000 / (F : ℚ) := by
    rw [← hfloor]; exact Int.floor_le _
  have hsucc : 1000000 + 1 ≤ (n + 1) * F := by
    have h1 : 1000000 % F < F := Int.emod_lt_of_pos _ hF
    have h2 := Int.emod_add_ediv 1000000 F
    rw [← hn] at h2
    nlinarith
  have hup : 1000000 / (F : ℚ) + 1 / (F : ℚ) ≤ (n : ℚ) + 1 := by
    rw [← add_div, div_le_iff₀ hFq]
    exact_mod_cast hsucc
  refine ⟨roundPos_lower _ hq (lt_of_le_of_lt hqle (by norm_num)) n hlow, ?_⟩
  have h1 := roundPos_upper _ hq
  have h2 : 1000000 / (F : ℚ) / (2 : ℚ) ^ (53 : ℕ) < 1 / (F : ℚ) := by
    rw [div_div, div_lt_div_iff (by positivity) hFq]
    have : (1 : ℚ) * ((F : ℚ) * 2 ^ 53) = (F : ℚ) * 2 ^ 53 := one_mul _
    rw [this]
    have : (1000000 : ℚ) < 2 ^ 53 := by norm_num
    nlinarith
  linarith

theorem interval_pos (F : ℤ) (hF : 0 < F) : interval F = some (1000000 / F) := by
  have hFq : (0 : ℚ) < (F : ℚ) := by exact_mod_cast hF
  have hq : (0 : ℚ) < 1000000 / (F : ℚ) := by positivity
  obtain ⟨hr1, hr2⟩ := roundPos_quotient F hF
  have hn0 : 0 ≤ 1000000 / F := Int.ediv_nonneg (by norm_num) hF.le
  have hnle : 1000000 / F ≤ 1000000 := Int.ediv_le_self _ (by norm_num)
  have hr0 : (0 : ℚ) ≤ roundPos (1000000 / (F : ℚ)) := le_trans (by exact_mod_cast hn0) hr1
  have htr : truncQ (roundPos (1000000 / (F : ℚ))) = 1000000 / F := by
    unfold truncQ
    rw [if_pos hr0]
    exact Int.floor_eq_iff.mpr ⟨hr1, hr2⟩
  unfold interval doubleDiv
  rw [if_neg hFq.ne']
  simp only [Option.some_bind]
  unfold doubleToInt roundDouble
  rw [if_neg hq.ne', if_neg (not_lt.mpr hq.le)]
  simp only [htr]
  rw [if_pos ⟨by omega, by omega⟩]

theorem interval_neg (F : ℤ) (hF : F < 0) : interval F = some (-(1000000 / (-F))) := by
  have hF' : 0 < -F := by omega
  have hFq : (F : ℚ) < 0 := by exact_mod_cast hF
  have hq : 1000000 / (F : ℚ) < 0 := div_neg_of_pos_of_neg (by norm_num) hFq
  obtain ⟨hr1, hr2⟩ := roundPos_quotient (-F) hF'
  have hcast : (1000000 : ℚ) / ((-F : ℤ) : ℚ) = -(1000000 / (F : ℚ)) := by
    push_cast
    rw [div_neg]
  rw [hcast] at hr1 hr2
  have hn0 : 0 ≤ 1000000 / (-F) := Int.ediv_nonneg (by norm_num) hF'.le
  have hnle : 1000000 / (-F) ≤ 1000000 := Int.ediv_le_self _ (by norm_num)
  have hn0q : (0 : ℚ) ≤ ((1000000 / (-F) : ℤ) : ℚ) := by exact_mod_cast hn0
  have htr : truncQ (-roundPos (-(1000000 / (F : ℚ)))) = -(1000000 / (-F)) := by
    unfold truncQ
    split_ifs with h0
    · have hz : roundPos (-(1000000 / (F : ℚ))) = 0 := by linarith
      rw [hz] at hr1 hr2 ⊢
      have h1 : (1000000 / (-F) : ℤ) ≤ 0 := by exact_mod_cast hr1
      have h2 : 1000000 / (-F) = 0 := by omega
      rw [h2]
      simp
    · rw [Int.ceil_neg, neg_inj]
      exact Int.floor_eq_iff.mpr ⟨hr1, hr2⟩
  unfold interval doubleDiv
  rw [if_neg hFq.ne]
  simp only [Option.some_bind]
  unfold doubleToInt roundDouble
  rw [if_neg hq.ne, if_pos hq]
  simp only [htr]
  rw [if_pos ⟨by omega, by omega⟩]

theorem interval_zero : interval 0 = none := by
  simp [interval, doubleDiv]

theorem interval_100 : interval 100 = some 10000 := by
  have := interval_pos 100 (by norm_num)
  simpa using this

/-! ## The monitors the coordinator constructs -/

theorem build_eq (platform : List Device) :
    ∀ monitors : List (Engine PowerState),
      PowerProfile.build platform monitors =
        Except.ok (monitors ++ platform.map
          (fun d => (⟨100, false, false, ⟨d, OfStream.closed⟩, []⟩ : Engine PowerState))) := by
  induction platform with
  | nil => intro monitors; simp [PowerProfile.build]
  | cons d rest ih =>
    intro monitors
    simp [PowerProfile.build, PowerMonitor.new, SamplingMonitor.new, ih]

theorem PowerProfile_new_eq (platform : List Device) :
    PowerProfile.new platform =
      Except.ok ⟨platform.map
        (fun d => (⟨100, false, false, ⟨d, OfStream.closed⟩, []⟩ : Engine PowerState))⟩ := by
  simp [PowerProfile.new, build_eq]


/-! ## The sampling loop -/

theorem sampling_loop_eq (i : ℤ) (obs : List Observation) :
    sampling_loop i obs =
      ⟨(List.replicate (leadingSamples obs).length (sampleCycle i)).flatten,
        decide ((leadingSamples obs).length < obs.length)⟩ := by
  induction obs with
  | nil => simp [sampling_loop, leadingSamples]
  | cons o rest ih =>
    unfold sampling_loop
    simp only
    by_cases h : (o.should_continue && !o.shoudEarlyTerminate) = true
    · rw [if_pos h, ih]
      simp [leadingSamples, List.takeWhile_cons, h, List.replicate_succ, sampleCycle] at *
    · rw [if_neg h]
      simp [leadingSamples, List.takeWhile_cons, h]

theorem count_sampleOnce_cycles (i : ℤ) (k : ℕ) :
    ((List.replicate k (sampleCycle i)).flatten).count Event.sampleOnce = k := by
  induction k with
  | zero => simp
  | succ k ih =>
    rw [List.replicate_succ, List.flatten_cons, List.count_append, ih]
    simp [sampleCycle, List.count_cons]
    omega

theorem count_willSample_cycles (i : ℤ) (k : ℕ) :
    ((List.replicate k (sampleCycle i)).flatten).count Event.willSample = 0 := by
  induction k with
  | zero => simp
  | succ k ih =>
    rw [List.replicate_succ, List.flatten_cons, List.count_append, ih]
    simp [sampleCycle, List.count_cons]

theorem count_didSample_cycles (i : ℤ) (k : ℕ) :
    ((List.replicate k (sampleCycle i)).flatten).count Event.didSample = 0 := by
  induction k with
  | zero => simp
  | succ k ih =>
    rw [List.replicate_succ, List.flatten_cons, List.count_append, ih]
    simp [sampleCycle, List.count_cons]

theorem sleepArgs_cycles (i : ℤ) (k : ℕ) :
    ((List.replicate k (sampleCycle i)).flatten).filterMap Event.sleepArg =
      List.replicate k i := by
  induction k with
  | zero => simp
  | succ k ih =>
    rw [List.replicate_succ, List.flatten_cons, List.filterMap_append, ih]
    simp [sampleCycle, Event.sleepArg, List.filterMap_cons, List.replicate_succ]

theorem leadingSamples_le_flag (obs : List Observation) :
    (leadingSamples obs).length ≤ (obs.takeWhile (fun o => o.should_continue)).length := by
  induction obs with
  | nil => simp [leadingSamples]
  | cons o rest ih =>
    unfold leadingSamples at *
    rcases o with ⟨c, e⟩
    cases c <;> cases e <;> simp [List.takeWhile_cons]
    exact ih

theorem leadingSamples_lt_iff (obs : List Observation) :
    (leadingSamples obs).length < obs.length ↔
      ∃ o ∈ obs, o.should_continue = false ∨ o.shoudEarlyTerminate = true := by
  induction obs with
  | nil => simp [leadingSamples]
  | cons o rest ih =>
    unfold leadingSamples at *
    rcases o with ⟨c, e⟩
    cases c <;> cases e <;> simp [List.takeWhile_cons]
    simpa using ih

theorem thread_func_run (sample_freq i : ℤ) (obs : List Observation)
    (h : interval sample_freq = some i) :
    thread_func sample_freq obs =
      some ⟨Event.willSample ::
          ((List.replicate (leadingSamples obs).length (sampleCycle i)).flatten ++
            (if (leadingSamples obs).length < obs.length then [Event.didSample] else [])),
        decide ((leadingSamples obs).length < obs.length)⟩ := by
  unfold thread_func
  rw [h]
  simp only [sampling_loop_eq, decide_eq_true_eq, List.singleton_append, List.cons_append,
    List.nil_append]

/-- C2. The event trace of `thread_func` on any finite sequence of per-iteration
observations, for a frequency whose interval `i` is defined: `willSample`, then with `k`
the number of leading observations that have the flag true and the predicate false, `k`
times the cycle `willSampleOnce, sampleOnce, didSampleOnce, willPause, sleep_for i,
didPause`, then, when an observation with the flag false or the predicate true exists
(the first one stands at position `k`), the loop is left and `didSample` is called once,
with no sample and no sleep for that observation. `sampleOnce` is called `k` times, `k`
is at most the number of leading observations that read the flag as true, `willSample`
is called once and `didSample` at most once. -/
theorem thread_func_trace (sample_freq i : ℤ) (obs : List Observation)
    (h : interval sample_freq = some i) :
    thread_func sample_freq obs =
      some ⟨Event.willSample ::
          ((List.replicate (leadingSamples obs).length (sampleCycle i)).flatten ++
            (if (leadingSamples obs).length < obs.length then [Event.didSample] else [])),
        decide ((leadingSamples obs).length < obs.length)⟩ ∧
    ((leadingSamples obs).length < obs.length ↔
      ∃ o ∈ obs, o.should_continue = false ∨ o.shoudEarlyTerminate = true) ∧
    (leadingSamples obs).length ≤ (obs.takeWhile (fun o => o.should_continue)).length ∧
    ∀ r, thread_func sample_freq obs = some r →
      r.events.count Event.sampleOnce = (leadingSamples obs).length ∧
      r.events.count Event.willSample = 1 ∧
      r.events.count Event.didSample =
        (if (leadingSamples obs).length < obs.length then 1 else 0) := by
  have hrun := thread_func_run sample_freq i obs h
  refine ⟨hrun, leadingSamples_lt_iff obs, leadingSamples_le_flag obs, ?_⟩
  intro r hr
  rw [hrun] at hr
  cases hr
  by_cases hk : (leadingSamples obs).length < obs.length
  · simp [hk, List.count_cons, List.count_append, count_sampleOnce_cycles,
      count_willSample_cycles, count_didSample_cycles]
  · simp [hk, List.count_cons, List.count_append, count_sampleOnce_cycles,
      count_willSample_cycles, count_didSample_cycles]

/-- Witness of C2: frequency 100, two sampling iterations, then the flag is read false. -/
theorem thread_func_trace_witness :
    interval 100 = some 10000 ∧
    thread_func 100 [⟨true, false⟩, ⟨true, false⟩, ⟨false, false⟩, ⟨true, false⟩] =
      some ⟨[Event.willSample,
          Event.willSampleOnce, Event.sampleOnce, Event.didSampleOnce, Event.willPause,
          Event.sleep_for 10000, Event.didPause,
          Event.willSampleOnce, Event.sampleOnce, Event.didSampleOnce, Event.willPause,
          Event.sleep_for 10000, Event.didPause,
          Event.didSample], true⟩ :=
  ⟨interval_100,
    (thread_func_trace 100 10000
      [⟨true, false⟩, ⟨true, false⟩, ⟨false, false⟩, ⟨true, false⟩] interval_100).1⟩

/-- C8. For every frequency `F > 0` line 43 computes the integer `1000000 / F` (floor
division), the double quotient being truncated; `thread_func` returns a run whose
`sleep_for` calls all carry that one value, one per sample cycle; the value is 10000 for
`F = 100`, the frequency of every monitor the coordinator constructs, and 0 for every
`F > 1000000`. -/
theorem interval_is_floor (F : ℤ) (hF : 0 < F) (obs : List Observation)
    (platform : List Device) :
    interval F = some (1000000 / F) ∧
    (∃ r, thread_func F obs = some r ∧
      r.events.filterMap Event.sleepArg =
        List.replicate (leadingSamples obs).length (1000000 / F)) ∧
    (F = 100 → interval F = some 10000) ∧
    (1000000 < F → interval F = some 0) ∧
    (∃ p, PowerProfile.new platform = Except.ok p ∧
      ∀ m ∈ p.powerMonitors, m.sample_freq = 100 ∧ interval m.sample_freq = some 10000) := by
  have hi := interval_pos F hF
  refine ⟨hi, ?_, ?_, ?_, ⟨_, PowerProfile_new_eq platform, ?_⟩⟩
  · refine ⟨_, thread_func_run F _ obs hi, ?_⟩
    simp only [List.filterMap_cons, Event.sleepArg, List.filterMap_append, sleepArgs_cycles]
    split_ifs <;> simp [Event.sleepArg]
  · intro h
    rw [hi, h]
    norm_num
  · intro h
    rw [hi, Int.ediv_eq_zero_of_lt (by norm_num) h]
  · intro m hm
    simp only [List.mem_map] at hm
    obtain ⟨d, _, hd⟩ := hm
    rw [← hd]
    exact ⟨rfl, interval_100⟩

/-- Witness of C8: the frequency 3 gives the interval 333333. -/
theorem interval_is_floor_witness : (0 : ℤ) < 3 ∧ interval 3 = some 333333 :=
  ⟨by decide, (interval_is_floor 3 (by decide) [] []).1⟩

/-! ## The interleaved executions -/

theorem Inv_init (b : Bool) : Inv (Sys.init b) := by
  simp [Inv, Sys.init]

theorem Inv_stepCaller (s t : Sys) (h : Inv s) (hs : stepCaller s = some t) : Inv t := by
  obtain ⟨h1, h2, h3, h4⟩ := h
  unfold stepCaller at hs
  split at hs <;> (try split at hs) <;> simp at hs <;> subst hs <;>
    simp_all [Inv]
  exact ⟨s.trace ++ [Mark.call Call.didTerminate], by simp, by simp [h3], by simp [h2]⟩

theorem Inv_stepSampler (F : ℤ) (b : Bool) (s t : Sys) (h : Inv s)
    (hs : stepSampler F b s = some t) : Inv t := by
  obtain ⟨h1, h2, h3, h4⟩ := h
  unfold stepSampler at hs
  split at hs <;> (try split at hs) <;> simp at hs <;> subst hs <;>
    simp_all [Inv]

theorem Inv_exec (F : ℤ) (sched : List Action) :
    ∀ s t : Sys, Inv s → exec F s sched = some t → Inv t := by
  induction sched with
  | nil =>
    intro s t h hs
    simp only [exec, Option.some.injEq] at hs
    exact hs ▸ h
  | cons a rest ih =>
    intro s t h hs
    simp only [exec] at hs
    cases hstep : step F s a with
    | none => simp [hstep] at hs
    | some s1 =>
      rw [hstep] at hs
      refine ih s1 t ?_ hs
      cases a with
      | caller => exact Inv_stepCaller s s1 h hstep
      | sampler early => exact Inv_stepSampler F early s s1 h hstep

theorem Inv_contract (s : Sys) (h : Inv s) : TerminateContract s.trace := by
  obtain ⟨_, _, h3, h4⟩ := h
  intro pre post hsplit
  by_cases hc : s.caller = CallerPc.returned
  · obtain ⟨p, hp, hnot, hex⟩ := h4 hc
    rw [hp] at hsplit
    rcases List.append_eq_append_iff.mp hsplit with ⟨a, ha1, ha2⟩ | ⟨c, hc1, hc2⟩
    · cases a with
      | nil =>
        simp at ha2
        simp at ha1
        subst ha1 ha2
        exact ⟨hex, by simp⟩
      | cons x xs =>
        simp at ha2
    · cases c with
      | nil =>
        simp at hc2
        simp at hc1
        subst hc1 hc2
        exact ⟨hex, by simp⟩
      | cons x xs =>
        simp at hc2
        exfalso
        apply hnot
        rw [hc1, ← hc2.1]
        simp
  · exfalso
    apply h3 hc
    rw [hsplit]
    simp

/-- C1. In every execution of the caller (`launch()`, then `terminate()`) interleaved
with the sampling thread, from a new engine with any flag value, for every frequency and
every result of the early-termination predicate: when `terminate()` has returned,
`thread_func` has exited; in the trace the end of `thread_func` stands before the return
of `terminate()` and no `sampleOnce` stands after it; and once `terminate()` has returned
the sampling thread has no statement left to execute. -/
theorem terminate_returns_after_thread_exit (sample_freq : ℤ) (flag : Bool)
    (schedule : List Action) (s : Sys)
    (h : exec sample_freq (Sys.init flag) schedule = some s) :
    (s.caller = CallerPc.returned → s.thread = ThreadPc.exited) ∧
    TerminateContract s.trace ∧
    (s.caller = CallerPc.returned →
      ∀ early, stepSampler sample_freq early s = none) := by
  have hinv := Inv_exec sample_freq schedule _ s (Inv_init flag) h
  refine ⟨fun hc => hinv.1 (Or.inr hc), Inv_contract s hinv, ?_⟩
  intro hc early
  have ht := hinv.1 (Or.inr hc)
  simp [stepSampler, ht]

theorem exec_append (F : ℤ) (xs ys : List Action) :
    ∀ s : Sys, exec F s (xs ++ ys) = (exec F s xs).bind (fun t => exec F t ys) := by
  induction xs with
  | nil => intro s; rfl
  | cons a rest ih =>
    intro s
    simp only [List.cons_append, exec]
    cases step F s a with
    | none => rfl
    | some s1 => exact ih s1


theorem exec_until_line43 : exec 100 (Sys.init false)
      (List.replicate 6 Action.caller ++ [Action.sampler false]) =
      some ⟨CallerPc.idle, ThreadPc.line43_interval, true, none, false, 0,
        [Mark.call Call.willLaunch, Mark.call Call.setLaunch, Mark.call Call.thread,
         Mark.call Call.didLaunch, Mark.event Event.willSample]⟩ := by
  simp only [exec, step, stepCaller, stepSampler, Sys.init, List.replicate, List.cons_append,
    List.nil_append]
  rfl

theorem stepSampler_line43 (F i : ℤ) (early : Bool) (s : Sys)
    (hs : s.thread = ThreadPc.line43_interval) (hi : interval F = some i) :
    stepSampler F early s = some { s with thread := ThreadPc.line45_lock, interval := i } := by
  unfold stepSampler
  simp only [hs, hi]

theorem exec_line43 (F i : ℤ) (early : Bool) (s : Sys)
    (hs : s.thread = ThreadPc.line43_interval) (hi : interval F = some i) :
    exec F s [Action.sampler early] =
      some { s with thread := ThreadPc.line45_lock, interval := i } := by
  have h := stepSampler_line43 F i early s hs hi
  simp only [exec, step, h]

theorem exec_at_line43 : exec 100 ⟨CallerPc.idle, ThreadPc.line43_interval, true, none, false, 0,
        [Mark.call Call.willLaunch, Mark.call Call.setLaunch, Mark.call Call.thread,
         Mark.call Call.didLaunch, Mark.event Event.willSample]⟩ [Action.sampler false] =
      some ⟨CallerPc.idle, ThreadPc.line45_lock, true, none, false, 10000,
        [Mark.call Call.willLaunch, Mark.call Call.setLaunch, Mark.call Call.thread,
         Mark.call Call.didLaunch, Mark.event Event.willSample]⟩ :=
  exec_line43 100 10000 false _ rfl interval_100

theorem exec_after_line43 : exec 100 ⟨CallerPc.idle, ThreadPc.line45_lock, true, none, false, 10000,
        [Mark.call Call.willLaunch, Mark.call Call.setLaunch, Mark.call Call.thread,
         Mark.call Call.didLaunch, Mark.event Event.willSample]⟩
      (List.replicate 10 (Action.sampler false) ++ List.replicate 4 Action.caller
        ++ List.replicate 5 (Action.sampler false) ++ List.replicate 2 Action.caller) =
      some oneSampleFinal := by
  simp only [exec, step, stepCaller, stepSampler, Sys.init, List.replicate, List.cons_append,
    List.nil_append]
  rfl

theorem sched_split : oneSampleSchedule =
      (List.replicate 6 Action.caller ++ [Action.sampler false]) ++
      ([Action.sampler false] ++
      (List.replicate 10 (Action.sampler false) ++ List.replicate 4 Action.caller
        ++ List.replicate 5 (Action.sampler false) ++ List.replicate 2 Action.caller)) := by
  simp [oneSampleSchedule, List.replicate]

theorem exec_oneSample :
    exec 100 (Sys.init false) oneSampleSchedule = some oneSampleFinal := by
  rw [sched_split, exec_append, exec_until_line43, Option.some_bind, exec_append,
    exec_at_line43, Option.some_bind]
  exact exec_after_line43

/-- Witness of C1: a schedule in which one sample is taken, `terminate()` is called during
the pause, the loop reads the flag as false, and `terminate()` returns. -/
theorem terminate_returns_after_thread_exit_witness :
    exec 100 (Sys.init false) oneSampleSchedule = some oneSampleFinal ∧
    oneSampleFinal.caller = CallerPc.returned ∧
    oneSampleFinal.thread = ThreadPc.exited ∧
    TerminateContract oneSampleFinal.trace :=
  ⟨exec_oneSample, rfl,
    (terminate_returns_after_thread_exit 100 false oneSampleSchedule oneSampleFinal
      exec_oneSample).1 rfl,
    (terminate_returns_after_thread_exit 100 false oneSampleSchedule oneSampleFinal
      exec_oneSample).2.1⟩

/-! ## `launch()`, `terminate()` and the destructor -/

theorem launch_idle {σ : Type} (h : Hooks σ) (e : Engine σ) (w : World)
    (hidle : e.monitor_thread = false) :
    ThreadMonitor.launch (SamplingMonitor.vtable h) e w =
      Result.returned
        ({ sample_freq := e.sample_freq
           should_continue := true
           monitor_thread := true
           derived := (h.didLaunch (h.willLaunch e.derived w).1 (h.willLaunch e.derived w).2).1
           calls := e.calls ++ [Call.willLaunch, Call.setLaunch, Call.thread, Call.didLaunch] },
         (h.didLaunch (h.willLaunch e.derived w).1 (h.willLaunch e.derived w).2).2) := by
  simp [ThreadMonitor.launch, SamplingMonitor.vtable, SamplingMonitor.setLaunch,
    Engine.record, Engine.hook, hidle]

/-- C5. On an engine that owns no joinable execution unit, `launch()` returns, having made
exactly the calls `willLaunch`, `setLaunch`, the creation of one thread running
`thread_func`, `didLaunch`, in this order; afterwards the flag is true, the engine owns a
joinable execution unit, and the derived state and the world are the ones the two hooks
leave. -/
theorem launch_effects {σ : Type} (h : Hooks σ) (e : Engine σ) (w : World)
    (hidle : e.monitor_thread = false) :
    ThreadMonitor.launch (SamplingMonitor.vtable h) e w =
      Result.returned
        ({ sample_freq := e.sample_freq
           should_continue := true
           monitor_thread := true
           derived := (h.didLaunch (h.willLaunch e.derived w).1 (h.willLaunch e.derived w).2).1
           calls := e.calls ++ [Call.willLaunch, Call.setLaunch, Call.thread, Call.didLaunch] },
         (h.didLaunch (h.willLaunch e.derived w).1 (h.willLaunch e.derived w).2).2) ∧
    [Call.willLaunch, Call.setLaunch, Call.thread, Call.didLaunch].count Call.thread = 1 := by
  exact ⟨launch_idle h e w hidle, by decide⟩

theorem close_file (s : OfStream) (w : World) : (s.close w).1.file = none := by
  unfold OfStream.close
  split
  · assumption
  · rfl

theorem terminate_joinable {σ : Type} (h : Hooks σ) (e : Engine σ) (w : World)
    (hrun : e.monitor_thread = true) :
    ThreadMonitor.terminate (SamplingMonitor.vtable h) e w =
      Result.returned
        ({ sample_freq := e.sample_freq
           should_continue := false
           monitor_thread := false
           derived :=
             (h.didTerminate (h.willTerminate e.derived w).1 (h.willTerminate e.derived w).2).1
           calls := e.calls ++
             [Call.willTerminate, Call.setTerminate, Call.join, Call.didTerminate] },
         (h.didTerminate (h.willTerminate e.derived w).1 (h.willTerminate e.derived w).2).2) := by
  simp [ThreadMonitor.terminate, SamplingMonitor.vtable, SamplingMonitor.setTerminate,
    Engine.record, Engine.hook, hrun]

theorem terminate_unjoinable {σ : Type} (h : Hooks σ) (e : Engine σ) (w : World)
    (hidle : e.monitor_thread = false) :
    ThreadMonitor.terminate (SamplingMonitor.vtable h) e w =
      Result.failed Failure.system_error
        ({ sample_freq := e.sample_freq
           should_continue := false
           monitor_thread := false
           derived := (h.willTerminate e.derived w).1
           calls := e.calls ++ [Call.willTerminate, Call.setTerminate, Call.join] },
         (h.willTerminate e.derived w).2) := by
  simp [ThreadMonitor.terminate, SamplingMonitor.vtable, SamplingMonitor.setTerminate,
    Engine.record, Engine.hook, hidle]

/-- C6. On an engine that owns a joinable execution unit, `terminate()` returns, having
made exactly the calls `willTerminate`, `setTerminate`, `join`, `didTerminate`, in this
order; afterwards the flag is false, the engine owns no joinable execution unit, and the
destructor returns without calling `terminate()` again (state and calls unchanged). For
the power sampler `didTerminate` leaves the trace file stream closed. -/
theorem terminate_effects {σ : Type} (h : Hooks σ) (e : Engine σ) (w : World)
    (hrun : e.monitor_thread = true) :
    (∃ e1 w1,
      ThreadMonitor.terminate (SamplingMonitor.vtable h) e w = Result.returned (e1, w1) ∧
      e1.calls = e.calls ++
        [Call.willTerminate, Call.setTerminate, Call.join, Call.didTerminate] ∧
      e1.should_continue = false ∧
      e1.monitor_thread = false ∧
      e1.sample_freq = e.sample_freq ∧
      (e1.derived, w1) =
        h.didTerminate (h.willTerminate e.derived w).1 (h.willTerminate e.derived w).2 ∧
      ThreadMonitor.destroy (SamplingMonitor.vtable h) e1 w1 = Result.returned (e1, w1)) ∧
    (∀ (p : Engine PowerState) (w0 : World), p.monitor_thread = true →
      ∃ p1 w1,
        ThreadMonitor.terminate (SamplingMonitor.vtable PowerMonitor.hooks) p w0 =
          Result.returned (p1, w1) ∧
        p1.derived.power_dump_file.file = none) := by
  constructor
  · exact ⟨_, _, terminate_joinable h e w hrun, rfl, rfl, rfl, rfl, rfl,
      by simp [ThreadMonitor.destroy]⟩
  · intro p w0 hp
    refine ⟨_, _, terminate_joinable PowerMonitor.hooks p w0 hp, ?_⟩
    simp only [PowerMonitor.hooks, PowerMonitor.didTerminate, noHook]
    exact close_file _ _

/-- Witness of C5: `launch()` on a new power monitor in a world without files. -/
theorem launch_effects_witness :
    freshMonitor.monitor_thread = false ∧
    ∃ e1 w1,
      ThreadMonitor.launch (SamplingMonitor.vtable PowerMonitor.hooks) freshMonitor emptyWorld =
        Result.returned (e1, w1) ∧
      e1.calls = [Call.willLaunch, Call.setLaunch, Call.thread, Call.didLaunch] ∧
      e1.should_continue = true ∧ e1.monitor_thread = true :=
  ⟨rfl, _, _, (launch_effects PowerMonitor.hooks freshMonitor emptyWorld rfl).1, rfl, rfl, rfl⟩

/-- Witness of C6: `terminate()` on a launched power monitor. -/
theorem terminate_effects_witness :
    launchedMonitor.monitor_thread = true ∧
    ∃ e1 w1,
      ThreadMonitor.terminate (SamplingMonitor.vtable PowerMonitor.hooks) launchedMonitor
          emptyWorld = Result.returned (e1, w1) ∧
      e1.calls = [Call.willLaunch, Call.setLaunch, Call.thread, Call.didLaunch,
        Call.willTerminate, Call.setTerminate, Call.join, Call.didTerminate] ∧
      e1.should_continue = false ∧ e1.monitor_thread = false :=
  match (terminate_effects PowerMonitor.hooks launchedMonitor emptyWorld rfl).1 with
  | ⟨e1, w1, h1, h2, h3, h4, _⟩ => ⟨rfl, e1, w1, h1, h2, h3, h4⟩

/-- C4, as amended. On an engine that owns no joinable execution unit `terminate()` is
not a no-op: it calls `willTerminate` and `setTerminate` (the flag ends false), then
`join` on the handle that is not joinable, which fails with `std::system_error`;
`didTerminate` is not called. The destructor is guarded: on such an engine it returns
without calling `terminate()`. A second `terminate()` after a first one that returned
fails in this way. -/
theorem terminate_without_thread {σ : Type} (h : Hooks σ) (e : Engine σ) (w : World)
    (hidle : e.monitor_thread = false) :
    ThreadMonitor.terminate (SamplingMonitor.vtable h) e w =
      Result.failed Failure.system_error
        ({ sample_freq := e.sample_freq
           should_continue := false
           monitor_thread := false
           derived := (h.willTerminate e.derived w).1
           calls := e.calls ++ [Call.willTerminate, Call.setTerminate, Call.join] },
         (h.willTerminate e.derived w).2) ∧
    ThreadMonitor.destroy (SamplingMonitor.vtable h) e w = Result.returned (e, w) ∧
    (∀ (e0 : Engine σ) (w0 : World), e0.monitor_thread = true →
      ∃ e1 w1 e2 w2,
        ThreadMonitor.terminate (SamplingMonitor.vtable h) e0 w0 = Result.returned (e1, w1) ∧
        ThreadMonitor.terminate (SamplingMonitor.vtable h) e1 w1 =
          Result.failed Failure.system_error (e2, w2)) := by
  refine ⟨terminate_unjoinable h e w hidle, by simp [ThreadMonitor.destroy, hidle], ?_⟩
  intro e0 w0 h0
  exact ⟨_, _, _, _, terminate_joinable h e0 w0 h0, terminate_unjoinable h _ _ rfl⟩

/-- Witness of the amended C4: a new power monitor. -/
theorem terminate_without_thread_witness :
    freshMonitor.monitor_thread = false ∧
    ThreadMonitor.destroy (SamplingMonitor.vtable PowerMonitor.hooks) freshMonitor emptyWorld =
      Result.returned (freshMonitor, emptyWorld) :=
  ⟨rfl, (terminate_without_thread PowerMonitor.hooks freshMonitor emptyWorld rfl).2.1⟩

/-- Counterexample to C4: `terminate()` on a new power monitor, which owns no joinable
execution unit, calls `join` on its handle and fails in it. -/
theorem terminate_joins_unjoinable_handle :
    freshMonitor.monitor_thread = false ∧
    ThreadMonitor.terminate (SamplingMonitor.vtable PowerMonitor.hooks) freshMonitor emptyWorld =
      Result.failed Failure.system_error
        (⟨100, false, false, ⟨⟨"dev0"⟩, OfStream.closed⟩,
          [Call.willTerminate, Call.setTerminate, Call.join]⟩, emptyWorld) :=
  ⟨rfl, rfl⟩

/-! ## Construction -/

/-- C3, as amended. No frequency is rejected at construction: for every integer `F`,
zero and negative ones included, constructing a `PowerMonitor` succeeds and records `F`
unchanged. For a negative frequency line 43 computes the interval `-(1000000 / -F)`.
The coordinator constructs every monitor with the frequency 100, whose interval is
10000. -/
theorem constructor_accepts_every_frequency (F : ℤ) (device : Device) (n : ℕ)
    (platform : List Device) :
    PowerMonitor.new F device =
      Except.ok ⟨F, false, false, ⟨device, OfStream.closed⟩, []⟩ ∧
    interval (Int.negSucc n) = some (-(1000000 / ((n : ℤ) + 1))) ∧
    (∃ p, PowerProfile.new platform = Except.ok p ∧
      p.powerMonitors.map Engine.sample_freq = List.replicate platform.length 100) ∧
    interval 100 = some 10000 := by
  refine ⟨rfl, ?_, ⟨_, PowerProfile_new_eq platform, ?_⟩, interval_100⟩
  · have h := interval_neg (Int.negSucc n) (Int.negSucc_lt_zero n)
    rw [h, Int.neg_negSucc]
    norm_cast
  · simp only [List.map_map]
    induction platform with
    | nil => rfl
    | cons d rest ih => simp [List.replicate_succ, ih]

/-- Counterexample to C3: the frequency 0 is accepted by the constructor, and with it
line 43 of `thread_func` divides by zero, which has no defined result; the frequency -4 is
accepted too and gives the interval -250000. -/
theorem zero_frequency_not_rejected :
    PowerMonitor.new 0 ⟨"dev0"⟩ =
      Except.ok ⟨0, false, false, ⟨⟨"dev0"⟩, OfStream.closed⟩, []⟩ ∧
    (∀ f, PowerMonitor.new 0 ⟨"dev0"⟩ ≠ Except.error f) ∧
    thread_func 0 [] = none ∧
    PowerMonitor.new (-4) ⟨"dev0"⟩ =
      Except.ok ⟨-4, false, false, ⟨⟨"dev0"⟩, OfStream.closed⟩, []⟩ ∧
    interval (-4) = some (-250000) := by
  refine ⟨rfl, ?_, ?_, rfl, ?_⟩
  · intro f hf
    cases hf
  · simp [thread_func, interval_zero]
  · have h := interval_neg (-4) (by decide)
    rw [h]
    norm_num

/-! ## The trace file -/

theorem putAll_open (pieces : List (List Char)) :
    ∀ (name : String) (buffer : List Char),
      (⟨some name, buffer, false⟩ : OfStream).putAll pieces =
        ⟨some name, buffer ++ pieces.flatten, false⟩ := by
  induction pieces with
  | nil => intro name buffer; simp [OfStream.putAll]
  | cons p rest ih =>
    intro name buffer
    have h := ih name (buffer ++ p)
    simp only [OfStream.putAll, List.foldl_cons, OfStream.put] at h ⊢
    simp [h]

theorem World.ext_files (files1 files2 : String → Option (List Char)) (cout : List Char)
    (h : ∀ n, files1 n = files2 n) : (⟨files1, cout⟩ : World) = ⟨files2, cout⟩ := by
  have : files1 = files2 := funext h
  rw [this]

theorem open_closed (s : OfStream) (w : World) (name : String) (mode : OpenMode)
    (h : s.file = none) :
    s.open w name mode =
      (⟨some name, [], false⟩,
        match mode with
        | OpenMode.trunc => w.setFile name []
        | OpenMode.app => w.setFile name (w.content name)) := by
  simp [OfStream.open, h]

theorem open_none (buffer : List Char) (failbit : Bool) (w : World) (name : String)
    (mode : OpenMode) :
    (⟨none, buffer, failbit⟩ : OfStream).open w name mode =
      (⟨some name, [], false⟩,
        match mode with
        | OpenMode.trunc => w.setFile name []
        | OpenMode.app => w.setFile name (w.content name)) := rfl

theorem open_some (file : String) (buffer : List Char) (failbit : Bool) (w : World)
    (name : String) (mode : OpenMode) :
    (⟨some file, buffer, failbit⟩ : OfStream).open w name mode =
      (⟨some file, buffer, true⟩, w) := rfl

theorem close_open (name : String) (buffer : List Char) (failbit : Bool) (w : World) :
    (⟨some name, buffer, failbit⟩ : OfStream).close w =
      (⟨none, [], failbit⟩, w.setFile name (w.content name ++ buffer)) := rfl

theorem flush_open (name : String) (buffer : List Char) (w : World) :
    (⟨some name, buffer, false⟩ : OfStream).flush w =
      (⟨some name, [], false⟩, w.setFile name (w.content name ++ buffer)) := rfl

theorem endl_open (name : String) (buffer : List Char) (w : World) :
    (⟨some name, buffer, false⟩ : OfStream).endl w =
      (⟨some name, [], false⟩, w.setFile name (w.content name ++ (buffer ++ ['\n']))) := rfl

theorem content_setFile (w : World) (name : String) (text : List Char) :
    (w.setFile name text).content name = text := by
  simp [World.setFile, World.content]

theorem setFile_setFile (w : World) (name : String) (a b : List Char) :
    (w.setFile name a).setFile name b = w.setFile name b := by
  unfold World.setFile
  apply World.ext_files
  intro n
  by_cases hn : n = name <;> simp [hn]

theorem willLaunch_closed (s : PowerState) (w : World)
    (hclosed : s.power_dump_file.file = none) :
    PowerMonitor.willLaunch s w =
      ({ s with power_dump_file := ⟨some (dump_filename s.device), [], false⟩ },
        (w.print ("open ".data ++ (dump_filename s.device).data ++ ['\n'])).setFile
          (dump_filename s.device) (headerText ++ ['\n'])) := by
  unfold PowerMonitor.willLaunch
  simp only [open_closed _ _ _ _ hclosed, close_open, open_none, putAll_open,
    endl_open, flush_open, content_setFile, setFile_setFile, List.nil_append, List.append_nil,
    headerText]

theorem outputPowerStatus_open (timestamp : ℤ) (status : XclPowerInfo) (s : PowerState)
    (w : World) (name : String) (hopen : s.power_dump_file = ⟨some name, [], false⟩) :
    PowerMonitor.outputPowerStatus timestamp status s w =
      (s, w.setFile name (w.content name ++ (rowText ⟨timestamp, status⟩ ++ ['\n']))) := by
  unfold PowerMonitor.outputPowerStatus
  rcases s with ⟨d, f⟩
  simp only at hopen
  subst hopen
  simp only [putAll_open, endl_open, flush_open, content_setFile, setFile_setFile,
    List.nil_append, List.append_nil, rowText]

theorem sampleAll_open (samples : List Sample) :
    ∀ (s : PowerState) (w : World) (name : String),
      s.power_dump_file = ⟨some name, [], false⟩ →
      PowerMonitor.sampleAll samples s w =
        (s, if samples = [] then w else
          w.setFile name (w.content name ++
            (samples.map (fun x => rowText x ++ ['\n'])).flatten)) := by
  induction samples with
  | nil =>
    intro s w name _
    simp [PowerMonitor.sampleAll]
  | cons x rest ih =>
    intro s w name hopen
    simp only [PowerMonitor.sampleAll, PowerMonitor.sampleOnce, PowerMonitor.readPowerStatus,
      outputPowerStatus_open x.timestamp x.status s w name hopen]
    rw [ih s _ name hopen]
    by_cases hr : rest = []
    · subst hr
      simp
    · simp [hr, content_setFile, setFile_setFile]

/-! ## The header row and the data rows -/

theorem digitChar_plain (n : ℕ) : Plain (Nat.digitChar (n % 10)) := by
  have h : ∀ m < 10, Nat.digitChar m ≠ ',' ∧ Nat.digitChar m ≠ '\n' := by decide
  exact h (n % 10) (Nat.mod_lt n (by norm_num))

theorem toDigitsCore_plain (fuel : ℕ) :
    ∀ (n : ℕ) (ds : List Char), (∀ c ∈ ds, Plain c) →
      ∀ c ∈ Nat.toDigitsCore 10 fuel n ds, Plain c := by
  induction fuel with
  | zero =>
    intro n ds hds c hc
    simp only [Nat.toDigitsCore] at hc
    exact hds c hc
  | succ fuel ih =>
    intro n ds hds c hc
    simp only [Nat.toDigitsCore] at hc
    have hcons : ∀ c ∈ Nat.digitChar (n % 10) :: ds, Plain c := by
      intro c hc
      rcases List.mem_cons.mp hc with h | h
      · rw [h]; exact digitChar_plain n
      · exact hds c h
    split_ifs at hc
    · exact hcons c hc
    · exact ih _ _ hcons c hc

theorem showNat_plain (n : ℕ) : ∀ c ∈ showNat n, Plain c :=
  toDigitsCore_plain _ _ _ (by simp)

theorem showInt_plain (z : ℤ) : ∀ c ∈ showInt z, Plain c := by
  cases z with
  | ofNat n => exact showNat_plain n
  | negSucc n =>
    intro c hc
    simp only [showInt, List.mem_cons] at hc
    rcases hc with h | h
    · rw [h]; exact ⟨by decide, by decide⟩
    · exact showNat_plain _ c h

theorem rowText_eq (x : Sample) : rowText x = [','].intercalate (rowFields x) := by
  simp [rowText, rowPieces, rowFields, statusColumns, List.intercalate, List.intersperse]

theorem headerText_eq : headerText = [','].intercalate headerFields := by
  simp [headerText, headerPieces, headerFields, statusColumns, List.intercalate,
    List.intersperse]

theorem rowFields_plain (x : Sample) : ∀ l ∈ rowFields x, ∀ c ∈ l, Plain c := by
  intro l hl
  simp only [rowFields, List.mem_cons, List.mem_map] at hl
  rcases hl with h | ⟨col, _, h⟩
  · rw [h]; exact showInt_plain _
  · rw [← h]; exact showNat_plain _

theorem headerFields_plain : ∀ l ∈ headerFields, ∀ c ∈ l, Plain c := by
  unfold Plain
  decide

theorem fields_of_plain (ls : List (List Char)) (hls : ls ≠ [])
    (h : ∀ l ∈ ls, ∀ c ∈ l, Plain c) : fields ([','].intercalate ls) = ls := by
  unfold fields
  refine List.splitOn_intercalate ls ',' ?_ hls
  intro l hl hc
  exact (h l hl ',' hc).1 rfl

theorem no_newline_of_plain (ls : List (List Char))
    (h : ∀ l ∈ ls, ∀ c ∈ l, Plain c) : '\n' ∉ [','].intercalate ls := by
  unfold List.intercalate
  induction ls with
  | nil => simp
  | cons a rest ih =>
    cases rest with
    | nil =>
      intro hc
      simp only [List.intersperse_single, List.flatten_cons, List.flatten_nil,
        List.append_nil] at hc
      exact (h a (List.mem_cons_self _ _) _ hc).2 rfl
    | cons b tl =>
      intro hc
      rw [List.intersperse_cons₂, List.flatten_cons, List.flatten_cons, List.mem_append,
        List.mem_append] at hc
      rcases hc with hc | hc | hc
      · exact (h a (List.mem_cons_self _ _) _ hc).2 rfl
      · simp at hc
      · exact ih (fun l hl => h l (List.mem_cons_of_mem _ hl)) hc

/-- C7. On a new power monitor `willLaunch` leaves in the trace file the header text and
one newline, and `outputPowerStatus` appends the row text and one newline, for every
status and every capture timestamp. Split at the commas, the header text is the 22
names `timestamp, mTimeStamp, mVInt, ..., m1v2Bottom` and the row text is the 22 values:
the capture timestamp, then for each position the value of the status field the header
names at that position. Neither text contains a newline. -/
theorem header_matches_row (x : Sample) (device : Device) (w : World) :
    (PowerMonitor.willLaunch ⟨device, OfStream.closed⟩ w).2.content (dump_filename device) =
      headerText ++ ['\n'] ∧
    (PowerMonitor.outputPowerStatus x.timestamp x.status
        (PowerMonitor.willLaunch ⟨device, OfStream.closed⟩ w).1
        (PowerMonitor.willLaunch ⟨device, OfStream.closed⟩ w).2).2.content
        (dump_filename device) =
      headerText ++ ['\n'] ++ (rowText x ++ ['\n']) ∧
    fields headerText = "timestamp".data :: statusColumns.map (fun c => c.1.data) ∧
    fields (rowText x) =
      showInt x.timestamp :: statusColumns.map (fun c => showNat (c.2 x.status)) ∧
    (fields headerText).length = 22 ∧
    (fields (rowText x)).length = 22 ∧
    '\n' ∉ headerText ∧
    '\n' ∉ rowText x := by
  have hh : fields headerText = headerFields := by
    rw [headerText_eq]
    exact fields_of_plain _ (by simp [headerFields]) headerFields_plain
  have hr : fields (rowText x) = rowFields x := by
    rw [rowText_eq]
    exact fields_of_plain _ (by simp [rowFields]) (rowFields_plain x)
  have hw := willLaunch_closed ⟨device, OfStream.closed⟩ w rfl
  refine ⟨?_, ?_, hh, hr, ?_, ?_, ?_, ?_⟩
  · rw [hw]
    exact content_setFile _ _ _
  · rw [hw, outputPowerStatus_open _ _ _ _ (dump_filename device) rfl]
    simp only [content_setFile]
  · rw [hh]
    rfl
  · rw [hr]
    simp [rowFields, statusColumns]
  · rw [headerText_eq]
    exact no_newline_of_plain _ headerFields_plain
  · rw [rowText_eq]
    exact no_newline_of_plain _ (rowFields_plain x)

set_option maxRecDepth 100000 in
theorem headerText_literal :
    headerText = ("timestamp,mTimeStamp,mVInt,mCurrent,mVAux,mVBram,m12VPex,m12VAux," ++
      "mPexCurr,mAuxCurr,m3v3Pex,m3v3Aux,mDDRVppBottom,mDDRVppTop,mSys5v5,m1v2Top," ++
      "m1v8Top,m0v85,mMgt0v9,m12vSW,mMgtVtt,m1v2Bottom").data := by
  decide

/-- C10. Whatever the trace file held before, and whatever else the world holds, when
`willLaunch` runs on a monitor whose stream is not open (a new monitor, or one on which
`terminate()` has returned) the file holds exactly the header text and one newline
afterwards and no other file is changed; the rows of the samples taken later are
appended after it, in order, each with its newline. -/
theorem willLaunch_truncates (s : PowerState) (w : World) (samples : List Sample)
    (hclosed : s.power_dump_file.file = none) :
    (PowerMonitor.willLaunch s w).2.files (dump_filename s.device) =
      some (headerText ++ ['\n']) ∧
    (∀ n, n ≠ dump_filename s.device → (PowerMonitor.willLaunch s w).2.files n = w.files n) ∧
    (PowerMonitor.sampleAll samples (PowerMonitor.willLaunch s w).1
        (PowerMonitor.willLaunch s w).2).2.content (dump_filename s.device) =
      headerText ++ ['\n'] ++ (samples.map (fun x => rowText x ++ ['\n'])).flatten ∧
    headerText = ("timestamp,mTimeStamp,mVInt,mCurrent,mVAux,mVBram,m12VPex,m12VAux," ++
      "mPexCurr,mAuxCurr,m3v3Pex,m3v3Aux,mDDRVppBottom,mDDRVppTop,mSys5v5,m1v2Top," ++
      "m1v8Top,m0v85,mMgt0v9,m12vSW,mMgtVtt,m1v2Bottom").data := by
  have hw := willLaunch_closed s w hclosed
  refine ⟨?_, ?_, ?_, headerText_literal⟩
  · rw [hw]
    simp [World.setFile]
  · intro n hn
    rw [hw]
    simp [World.setFile, World.print, hn]
  · rw [hw, sampleAll_open samples _ _ (dump_filename s.device) rfl]
    by_cases hs : samples = []
    · simp [hs, content_setFile]
    · simp [hs, content_setFile, setFile_setFile]

/-- Witness of C10: the trace file of `dev0` holds 500 characters of an earlier run. -/
theorem willLaunch_truncates_witness :
    (⟨⟨"dev0"⟩, OfStream.closed⟩ : PowerState).power_dump_file.file = none ∧
    staleWorld.files (dump_filename ⟨"dev0"⟩) = some (List.replicate 500 'x') ∧
    (PowerMonitor.willLaunch ⟨⟨"dev0"⟩, OfStream.closed⟩ staleWorld).2.files
        (dump_filename ⟨"dev0"⟩) = some (headerText ++ ['\n']) :=
  ⟨rfl, by simp only [staleWorld, if_true],
    (willLaunch_truncates ⟨⟨"dev0"⟩, OfStream.closed⟩ staleWorld [] rfl).1⟩

/-- When `willLaunch` runs on a monitor whose stream is still open (a second `launch()`
without `terminate()`), the `out | trunc` open fails and the header is appended to what
the file holds. -/
theorem willLaunch_on_open_stream (device : Device) (w : World) :
    (PowerMonitor.willLaunch ⟨device, ⟨some (dump_filename device), [], false⟩⟩ w).2.content
        (dump_filename device) =
      w.content (dump_filename device) ++ (headerText ++ ['\n']) := by
  unfold PowerMonitor.willLaunch
  simp only [open_some, close_open, open_none, putAll_open, endl_open, flush_open,
    content_setFile, setFile_setFile, List.nil_append, List.append_nil, headerText]
  simp [World.content, World.print, World.setFile]

/-! ## The coordinator -/

theorem dump_filename_injective (a b : Device) (h : dump_filename a = dump_filename b) :
    a = b := by
  rcases a with ⟨a⟩
  rcases b with ⟨b⟩
  unfold dump_filename at h
  have h1 := congrArg String.data h
  simp only [String.data_append, List.append_assoc] at h1
  have h2 := List.append_cancel_left h1
  have h3 := List.append_cancel_right h2
  congr 1
  exact String.ext h3

theorem launch_fresh (device : Device) (w : World) :
    ThreadMonitor.launch (SamplingMonitor.vtable PowerMonitor.hooks)
        ⟨100, false, false, ⟨device, OfStream.closed⟩, []⟩ w =
      Result.returned (launchedFor device, worldAfterLaunch w device) := by
  rw [launch_idle PowerMonitor.hooks _ w rfl]
  have hw := willLaunch_closed ⟨device, OfStream.closed⟩ w rfl
  simp only [PowerMonitor.hooks, noHook, hw]
  rfl

theorem forEach_launch (platform : List Device) :
    ∀ w : World,
      PowerProfile.forEach (ThreadMonitor.launch (SamplingMonitor.vtable PowerMonitor.hooks))
          (platform.map
            (fun d => (⟨100, false, false, ⟨d, OfStream.closed⟩, []⟩ : Engine PowerState))) w =
        Result.returned (platform.map launchedFor, platform.foldl worldAfterLaunch w) := by
  induction platform with
  | nil => intro w; rfl
  | cons d rest ih =>
    intro w
    simp only [List.map_cons, PowerProfile.forEach, launch_fresh, ih, List.foldl_cons]

theorem foldl_files_other (platform : List Device) :
    ∀ (w : World) (n : String), n ∉ platform.map dump_filename →
      (platform.foldl worldAfterLaunch w).files n = w.files n := by
  induction platform with
  | nil => intro w n _; rfl
  | cons d rest ih =>
    intro w n hn
    simp only [List.map_cons, List.mem_cons, not_or] at hn
    rw [List.foldl_cons, ih _ n hn.2]
    simp [worldAfterLaunch, World.setFile, World.print, hn.1]

theorem foldl_files_header (platform : List Device) :
    ∀ (w : World) (d : Device),
      (d ∈ platform ∨ w.files (dump_filename d) = some (headerText ++ ['\n'])) →
      (platform.foldl worldAfterLaunch w).files (dump_filename d) =
        some (headerText ++ ['\n']) := by
  induction platform with
  | nil =>
    intro w d h
    rcases h with h | h
    · simp at h
    · exact h
  | cons a rest ih =>
    intro w d h
    rw [List.foldl_cons]
    apply ih
    by_cases hda : d = a
    · right
      subst hda
      simp [worldAfterLaunch, World.setFile]
    · rcases h with h | h
      · left
        rcases List.mem_cons.mp h with h1 | h1
        · exact absurd h1 hda
        · exact h1
      · right
        have hne : dump_filename d ≠ dump_filename a :=
          fun hh => hda (dump_filename_injective d a hh)
        simp [worldAfterLaunch, World.setFile, World.print, hne, h]

theorem dump_filename_nodup (platform : List Device)
    (h : (platform.map Device.unique_name).Nodup) : (platform.map dump_filename).Nodup := by
  have hp : platform.Nodup := List.Nodup.of_map _ h
  exact List.Nodup.map (fun a b hab => dump_filename_injective a b hab) hp

/-- C9. For every list of targets with pairwise distinct unique names and every world:
the coordinator built from the list owns one monitor per target, in the order of the
list, each with the frequency 100; `launch()` returns; the trace files, named
`power-trace-` ++ name ++ `.csv`, are pairwise distinct and as many as the targets; each
holds exactly the header row, so is not empty, when `launch()` returns with no sample
taken yet; no other file is changed; every monitor is running with its stream open on
its own file. -/
theorem coordinator_launch (platform : List Device) (w : World)
    (hdistinct : (platform.map Device.unique_name).Nodup) :
    ∃ p p1 w1,
      PowerProfile.new platform = Except.ok p ∧
      p.powerMonitors.length = platform.length ∧
      p.powerMonitors.map (fun m => m.derived.device) = platform ∧
      (∀ m ∈ p.powerMonitors, m.sample_freq = 100 ∧ m.monitor_thread = false) ∧
      p.launch w = Result.returned (p1, w1) ∧
      (platform.map dump_filename).Nodup ∧
      (platform.map dump_filename).length = platform.length ∧
      (∀ d ∈ platform,
        dump_filename d = "power-trace-" ++ d.unique_name ++ ".csv" ∧
        w1.files (dump_filename d) = some (headerText ++ ['\n'])) ∧
      headerText ++ ['\n'] ≠ [] ∧
      (∀ n, n ∉ platform.map dump_filename → w1.files n = w.files n) ∧
      p1.powerMonitors = platform.map launchedFor := by
  refine ⟨_, ⟨platform.map launchedFor⟩,
    platform.foldl worldAfterLaunch (w.print "launching power profile ...\n".data),
    PowerProfile_new_eq platform, by simp, ?_, ?_, ?_, dump_filename_nodup platform hdistinct,
    by simp, ?_, by simp, ?_, rfl⟩
  · simp only [List.map_map]
    exact List.map_id' _
  · intro m hm
    simp only [List.mem_map] at hm
    obtain ⟨d, _, hd⟩ := hm
    rw [← hd]
    exact ⟨rfl, rfl⟩
  · simp only [PowerProfile.launch, forEach_launch]
  · intro d hd
    exact ⟨rfl, foldl_files_header platform _ d (Or.inl hd)⟩
  · intro n hn
    rw [foldl_files_other platform _ n hn]
    rfl

/-- Witness of C9: the two targets `dev0` and `dev1` in a world without files. -/
theorem coordinator_launch_witness :
    ([(⟨"dev0"⟩ : Device), ⟨"dev1"⟩].map Device.unique_name).Nodup ∧
    ∃ p p1 w1,
      PowerProfile.new [⟨"dev0"⟩, ⟨"dev1"⟩] = Except.ok p ∧
      p.powerMonitors.length = 2 ∧
      p.launch emptyWorld = Result.returned (p1, w1) ∧
      w1.files (dump_filename ⟨"dev0"⟩) = some (headerText ++ ['\n']) ∧
      w1.files (dump_filename ⟨"dev1"⟩) = some (headerText ++ ['\n']) :=
  have hd : ([(⟨"dev0"⟩ : Device), ⟨"dev1"⟩].map Device.unique_name).Nodup := by decide
  match coordinator_launch [⟨"dev0"⟩, ⟨"dev1"⟩] emptyWorld hd with
  | ⟨p, p1, w1, h1, h2, _, _, h5, _, _, h8, _⟩ =>
    ⟨hd, p, p1, w1, h1, h2, h5, (h8 _ (by simp)).2, (h8 _ (by simp)).2⟩

end XCL
